import Mathlib

/-!
Shallow embedding of `src/du/torch_utils.py` and verification of the
specification's claims about it.

Conventions of the embedding:
* real-valued tensors are modelled over `ℚ` (exact arithmetic);
* a batch is a `List` of rows, a row a `List` of class scores;
* Python exceptions are modelled with `Except PyError` (for constructors and
  stateful updates) or `Option` (for item lookup, `none` = `IndexError`);
* the external numerical backend's `log_softmax` kernel is abstracted as a
  function parameter (the spec places the numerical kernels out of scope).
-/

/-- The Python exception kinds raised by the code under verification. -/
inductive PyError where
  | assertionError
  | attributeError
  | zeroDivisionError
  | valueError
  deriving DecidableEq

/-- Python list indexing semantics: `l[idx]` for `idx` in `[-len l, len l)`,
negative indices counting from the end; anything else is an `IndexError`
(modelled as `none`).  The underlying datasets of `ConcatDataset` behave this
way (list/array-backed indexed datasets). -/
def pyGet {α : Type} (l : List α) (idx : ℤ) : Option α :=
  if idx < 0 then
    if idx + l.length < 0 then none else l[(idx + l.length).toNat]?
  else l[idx.toNat]?

/-- `ConcatDataset.__len__` (line 103-104): the sum of the lengths of the
underlying datasets. -/
def concatLen {α : Type} (ds : List (List α)) : ℕ :=
  (ds.map List.length).sum

/-- `ConcatDataset.__getitem__` (lines 106-113):

    dataset_idx = 0
    while idx >= len(self.datasets[dataset_idx]) and dataset_idx < (len(self.datasets) - 1):
        idx -= len(self.datasets[dataset_idx])
        dataset_idx += 1
    return self.datasets[dataset_idx][idx]

The loop walks forward while the remaining index is at least the current
dataset's length and a further dataset exists; the final lookup uses Python
indexing (no error checking, as the code's own comment warns).  An empty
dataset list makes the loop condition itself raise `IndexError`. -/
def concatGet {α : Type} : List (List α) → ℤ → Option α
  | [], _ => none
  | [d], idx => pyGet d idx
  | d :: d2 :: rest, idx =>
    if (d.length : ℤ) ≤ idx then concatGet (d2 :: rest) (idx - d.length)
    else pyGet d idx

/-- Reference function written from the spec's words only (for comparison with
`concatGet`): "find the first i such that idx falls within D_i's range by
walking cumulative lengths in order; returns D_i.get(idx − offset_i)". -/
def specConcatGet {α : Type} : List (List α) → ℕ → Option α
  | [], _ => none
  | d :: rest, idx =>
    if idx < d.length then d[idx]? else specConcatGet rest (idx - d.length)

/-- `AverageMeter`'s four fields (lines 48-52 set them all to 0 in `reset`). -/
structure AverageMeter where
  val : ℚ
  avg : ℚ
  sum : ℚ
  count : ℚ
  deriving DecidableEq

/-- `AverageMeter.reset` / `__init__`: the all-zero state. -/
def AverageMeter.reset : AverageMeter := ⟨0, 0, 0, 0⟩

/-- `AverageMeter.update` (lines 54-58).  The final statement
`self.avg = self.sum / self.count` performs a true division: if the updated count
is zero, Python raises `ZeroDivisionError`. -/
def AverageMeter.update (m : AverageMeter) (v n : ℚ) : Except PyError AverageMeter :=
  let s := m.sum + v * n
  let c := m.count + n
  if c = 0 then Except.error PyError.zeroDivisionError
  else Except.ok ⟨v, s / c, s, c⟩

/-- Run a sequence of `update` calls, stopping at the first raised error. -/
def foldUpdates : AverageMeter → List (ℚ × ℚ) → Except PyError AverageMeter
  | m, [] => Except.ok m
  | m, p :: rest =>
    match m.update p.1 p.2 with
    | Except.ok m2 => foldUpdates m2 rest
    | Except.error e => Except.error e

/-- A sequence of `update (value, weight)` calls performed after a `reset`. -/
def runUpdates (l : List (ℚ × ℚ)) : Except PyError AverageMeter :=
  foldUpdates AverageMeter.reset l

/-- The state of a successfully constructed `AugmentedDataset`: the only
attribute `__init__` (lines 117-120) ever assigns is `self.dataset`. -/
structure AugmentedDataset (α : Type) where
  dataset : List α

/-- `AugmentedDataset.__init__` (lines 117-120):

    assert len(dataset) == len(augmented_data)
    self.dataset = dataset
    self.augmented_data

On a length mismatch the `assert` raises `AssertionError`.  Otherwise the
bare expression statement `self.augmented_data` reads an attribute that was
never assigned and raises `AttributeError`; construction never succeeds. -/
def augmentedDatasetInit {α β : Type} (dataset : List α) (augmented_data : List β) :
    Except PyError (AugmentedDataset α) :=
  if dataset.length = augmented_data.length then
    Except.error PyError.attributeError
  else
    Except.error PyError.assertionError

/-- The ordering `torch.topk` uses on the class indices of one score row:
higher score first, ties broken by the smaller index (stable,
first-seen-index-wins). -/
def scoreRel (row : List ℚ) (i j : ℕ) : Prop :=
  row.getD j 0 < row.getD i 0 ∨ (row.getD i 0 = row.getD j 0 ∧ i ≤ j)

instance scoreRelDecidable (row : List ℚ) : DecidableRel (scoreRel row) := fun i j =>
  inferInstanceAs (Decidable (row.getD j 0 < row.getD i 0 ∨ (row.getD i 0 = row.getD j 0 ∧ i ≤ j)))

instance scoreRelTotal (row : List ℚ) : IsTotal ℕ (scoreRel row) where
  total i j := by
    rcases lt_trichotomy (row.getD i 0) (row.getD j 0) with h | h | h
    · exact Or.inr (Or.inl h)
    · rcases Nat.le_total i j with hij | hij
      · exact Or.inl (Or.inr ⟨h, hij⟩)
      · exact Or.inr (Or.inr ⟨h.symm, hij⟩)
    · exact Or.inl (Or.inl h)

instance scoreRelTrans (row : List ℚ) : IsTrans ℕ (scoreRel row) where
  trans i j k hij hjk := by
    rcases hij with h1 | ⟨h1, hij⟩ <;> rcases hjk with h2 | ⟨h2, hjk⟩
    · exact Or.inl (h2.trans h1)
    · exact Or.inl (by rw [← h2]; exact h1)
    · exact Or.inl (by rw [h1]; exact h2)
    · exact Or.inr ⟨h1.trans h2, Nat.le_trans hij hjk⟩

/-- The class indices of one score row, sorted the way `output.topk` ranks
them (descending score, stable on ties). -/
def sortIdx (row : List ℚ) : List ℕ :=
  (List.range row.length).insertionSort (scoreRel row)

/-- The indices of the `k` highest-scoring classes of a row: what one column
of `pred` holds after `output.topk(maxk, 1, True, True)` (line 32), truncated
to the first `k` rows by `correct[:k]` (line 38). -/
def topkIdx (row : List ℚ) (k : ℕ) : List ℕ :=
  (sortIdx row).take k

/-- Whether the true label is among the top `k` predictions of a row, i.e.
whether the column of `correct[:k]` (line 34: `pred.eq(target...)`) for this
example holds a `True`. -/
def inTopk (row : List ℚ) (t k : ℕ) : Bool :=
  decide (t ∈ topkIdx row k)

/-- `correct_k` (line 38): the number of examples whose true label is among
the top `k` predictions. -/
def correctCount (output : List (List ℚ)) (target : List ℕ) (k : ℕ) : ℕ :=
  ((output.zip target).filter fun p => inTopk p.1 p.2 k).length

/-- `accuracy` (lines 23-40): for each requested `k`, the count of examples
whose label is in the top `k`, times `100.0 / batch_size`. -/
def accuracy (output : List (List ℚ)) (target : List ℕ) (topk : List ℕ) : List ℚ :=
  topk.map fun k => (correctCount output target k : ℚ) * (100 / target.length)

/-- `cross_entropy_loss` (lines 76-86) for the default last axis, with the
external backend's `log_softmax` kernel abstracted as `log_softmax_row`
(the spec places numerical kernels out of scope).  Per row,
`tmp = -sum(probs * log_softmax(logits))`; reduction `"mean"` returns the
mean of `tmp`, anything else raises `ValueError`. -/
def cross_entropy_loss (log_softmax_row : List ℚ → List ℚ)
    (logits probs : List (List ℚ)) (reduction : String) : Except PyError ℚ :=
  let tmp := (logits.zip probs).map fun lp =>
    -(((lp.2.zip (log_softmax_row lp.1)).map fun q => q.1 * q.2).sum)
  if reduction = "mean" then Except.ok (tmp.sum / tmp.length)
  else Except.error PyError.valueError

/-- `F.one_hot(target, num_classes).float()` (line 91) for one integer label:
1 at the label's slot, 0 elsewhere. -/
def one_hot (t : ℕ) (num_classes : ℕ) : List ℚ :=
  (List.range num_classes).map fun j => if j = t then 1 else 0

/-- `label_smoothing` (lines 89-96) on an already-soft target distribution:
`uniform_weight = epsilon / (num_classes - 1)`,
`target_scaling = 1 - epsilon - uniform_weight`, output
`target * target_scaling + uniform_weight` slotwise. -/
def label_smoothing (target : List ℚ) (epsilon : ℚ) : List ℚ :=
  let num_classes : ℚ := target.length
  let uniform_weight := epsilon / (num_classes - 1)
  let target_scaling := 1 - epsilon - uniform_weight
  target.map fun x => x * target_scaling + uniform_weight

/-- `label_smoothing` on an integer label: the code first one-hot encodes the
label (lines 90-91) and then proceeds identically. -/
def label_smoothing_int (t : ℕ) (epsilon : ℚ) (num_classes : ℕ) : List ℚ :=
  label_smoothing (one_hot t num_classes) epsilon

/-! ## Helper lemmas -/

theorem pyGet_natCast {α : Type} (l : List α) (n : ℕ) : pyGet l (n : ℤ) = l[n]? := by
  have h : ¬ ((n : ℤ) < 0) := by omega
  simp [pyGet, h]

theorem pyGet_oob {α : Type} (l : List α) (idx : ℤ) (h : (l.length : ℤ) ≤ idx) :
    pyGet l idx = none := by
  have h0 : ¬ (idx < 0) := by omega
  rw [pyGet, if_neg h0]
  apply List.getElem?_eq_none
  omega

theorem concatLen_cons {α : Type} (d : List α) (rest : List (List α)) :
    concatLen (d :: rest) = d.length + concatLen rest := by
  simp [concatLen]

theorem concatGet_eq_spec {α : Type} (ds : List (List α)) :
    ∀ idx : ℕ, idx < concatLen ds →
      concatGet ds (idx : ℤ) = specConcatGet ds idx ∧
      (specConcatGet ds idx).isSome = true := by
  induction ds with
  | nil => intro idx h; simp [concatLen] at h
  | cons d rest ih =>
    intro idx hidx
    rw [concatLen_cons] at hidx
    cases rest with
    | nil =>
      have hlt : idx < d.length := by simpa [concatLen] using hidx
      constructor
      · rw [show concatGet [d] (idx : ℤ) = pyGet d (idx : ℤ) from rfl, pyGet_natCast]
        simp [specConcatGet, hlt]
      · simp [specConcatGet, hlt, List.getElem?_eq_getElem hlt]
    | cons d2 rest2 =>
      by_cases hlt : idx < d.length
      · have hc : ¬ ((d.length : ℤ) ≤ (idx : ℤ)) := by omega
        constructor
        · rw [show concatGet (d :: d2 :: rest2) (idx : ℤ) = pyGet d (idx : ℤ) from by
            simp [concatGet, hc], pyGet_natCast]
          simp [specConcatGet, hlt]
        · simp [specConcatGet, hlt, List.getElem?_eq_getElem hlt]
      · push_neg at hlt
        have hc : (d.length : ℤ) ≤ (idx : ℤ) := by omega
        have hcast : (idx : ℤ) - d.length = ((idx - d.length : ℕ) : ℤ) := by omega
        have hrec : idx - d.length < concatLen (d2 :: rest2) := by omega
        have hih := ih (idx - d.length) hrec
        have hnl : ¬ (idx < d.length) := Nat.not_lt.mpr hlt
        constructor
        · rw [show concatGet (d :: d2 :: rest2) (idx : ℤ)
              = concatGet (d2 :: rest2) ((idx : ℤ) - d.length) from by simp [concatGet, hc],
            hcast, hih.1]
          simp [specConcatGet, hnl]
        · simpa [specConcatGet, hnl] using hih.2

theorem concatGet_oob {α : Type} (ds : List (List α)) :
    ∀ idx : ℤ, (concatLen ds : ℤ) ≤ idx → concatGet ds idx = none := by
  induction ds with
  | nil => intro idx _; rfl
  | cons d rest ih =>
    intro idx h
    rw [concatLen_cons] at h
    push_cast at h
    cases rest with
    | nil =>
      rw [show concatGet [d] idx = pyGet d idx from rfl]
      exact pyGet_oob d idx (by simpa [concatLen] using h)
    | cons d2 rest2 =>
      have hlen0 : (0 : ℤ) ≤ (concatLen (d2 :: rest2) : ℤ) := by positivity
      have hc : (d.length : ℤ) ≤ idx := by omega
      rw [show concatGet (d :: d2 :: rest2) idx
          = concatGet (d2 :: rest2) (idx - d.length) from by simp [concatGet, hc]]
      exact ih (idx - d.length) (by omega)

theorem concatGet_neg {α : Type} (d : List α) (rest : List (List α)) (idx : ℤ)
    (h : idx < 0) : concatGet (d :: rest) idx = pyGet d idx := by
  cases rest with
  | nil => rfl
  | cons d2 rest2 =>
    have hc : ¬ ((d.length : ℤ) ≤ idx) := by omega
    simp [concatGet, hc]

theorem pyGet_neg_one_getLast {α : Type} (d : List α) (h : d ≠ []) :
    pyGet d (-1) = some (d.getLast h) := by
  have hlen : 1 ≤ d.length := List.length_pos.mpr h
  have h1 : ((-1 : ℤ)) < 0 := by omega
  have h2 : ¬ ((-1 : ℤ) + d.length < 0) := by omega
  rw [pyGet, if_pos h1, if_neg h2]
  have h3 : ((-1 : ℤ) + d.length).toNat = d.length - 1 := by omega
  rw [h3, List.getLast_eq_getElem]
  exact List.getElem?_eq_getElem _

theorem foldUpdates_spec :
    ∀ (l : List (ℚ × ℚ)) (m : AverageMeter), 0 ≤ m.count → (∀ p ∈ l, 0 < p.2) →
      ∃ m2, foldUpdates m l = Except.ok m2 ∧
        m2.sum = m.sum + (l.map fun p => p.1 * p.2).sum ∧
        m2.count = m.count + (l.map Prod.snd).sum ∧
        (l = [] → m2 = m) ∧
        (l ≠ [] → m2.avg = m2.sum / m2.count) := by
  intro l
  induction l with
  | nil =>
    intro m _ _
    exact ⟨m, rfl, by simp, by simp, fun _ => rfl, fun h => absurd rfl h⟩
  | cons p rest ih =>
    intro m hc hp
    have hn : 0 < p.2 := hp p (List.mem_cons_self p rest)
    have hcne : m.count + p.2 ≠ 0 := by positivity
    have hupd : m.update p.1 p.2
        = Except.ok ⟨p.1, (m.sum + p.1 * p.2) / (m.count + p.2),
            m.sum + p.1 * p.2, m.count + p.2⟩ := by
      simp [AverageMeter.update, hcne]
    obtain ⟨m2, hfold, hsum, hcount, hnil, havg⟩ :=
      ih ⟨p.1, (m.sum + p.1 * p.2) / (m.count + p.2), m.sum + p.1 * p.2, m.count + p.2⟩
        (by simp; positivity) (fun q hq => hp q (List.mem_cons_of_mem p hq))
    refine ⟨m2, ?_, ?_, ?_, ?_, ?_⟩
    · rw [foldUpdates, hupd]
      exact hfold
    · rw [hsum]; simp; ring
    · rw [hcount]; simp; ring
    · intro h; exact absurd h (List.cons_ne_nil p rest)
    · intro _
      rcases eq_or_ne rest [] with hr | hr
      · subst hr
        rw [hnil rfl]
      · exact havg hr

theorem sortIdx_perm (row : List ℚ) : (sortIdx row).Perm (List.range row.length) :=
  List.perm_insertionSort (scoreRel row) (List.range row.length)

theorem sortIdx_length (row : List ℚ) : (sortIdx row).length = row.length := by
  rw [(sortIdx_perm row).length_eq, List.length_range]

theorem mem_sortIdx (row : List ℚ) (t : ℕ) : t ∈ sortIdx row ↔ t < row.length := by
  rw [(sortIdx_perm row).mem_iff, List.mem_range]

theorem mem_topkIdx_full (row : List ℚ) (t : ℕ) (h : t < row.length) :
    t ∈ topkIdx row row.length := by
  rw [topkIdx, ← sortIdx_length row, List.take_length]
  exact (mem_sortIdx row t).mpr h

theorem sortIdx_sorted (row : List ℚ) : List.Sorted (scoreRel row) (sortIdx row) :=
  List.sorted_insertionSort (scoreRel row) (List.range row.length)

theorem mem_topkIdx_one (row : List ℚ) (t : ℕ) (ht : t < row.length)
    (hmax : ∀ j < row.length, j ≠ t → row.getD j 0 < row.getD t 0) :
    t ∈ topkIdx row 1 := by
  have hmem : t ∈ sortIdx row := (mem_sortIdx row t).mpr ht
  rcases hL : sortIdx row with _ | ⟨h0, tl⟩
  · rw [hL] at hmem; simp at hmem
  · have hsorted := sortIdx_sorted row
    rw [hL, List.sorted_cons] at hsorted
    have hh0 : h0 < row.length := by
      have hm : h0 ∈ sortIdx row := by rw [hL]; exact List.mem_cons_self h0 tl
      exact (mem_sortIdx row h0).mp hm
    rw [hL] at hmem
    by_cases he : t = h0
    · subst he
      simp [topkIdx, hL]
    · have htl : t ∈ tl := by
        rcases List.mem_cons.mp hmem with h | h
        · exact absurd h he
        · exact h
      rcases hsorted.1 t htl with hlt | ⟨heq, _⟩
      · exact absurd hlt (lt_asymm (hmax h0 hh0 (fun hc => he hc.symm)))
      · have hcontr := hmax h0 hh0 (fun hc => he hc.symm)
        rw [heq] at hcontr
        exact absurd hcontr (lt_irrefl _)

theorem correctCount_full (output : List (List ℚ)) (target : List ℕ) (k : ℕ)
    (hall : ∀ p ∈ output.zip target, inTopk p.1 p.2 k = true) :
    correctCount output target k = (output.zip target).length := by
  rw [correctCount, List.filter_eq_self.mpr hall]

theorem accuracy_of_all_in_topk (output : List (List ℚ)) (target : List ℕ) (k : ℕ)
    (hlen : output.length = target.length) (hN : 0 < target.length)
    (hall : ∀ p ∈ output.zip target, inTopk p.1 p.2 k = true) :
    accuracy output target [k] = [100] := by
  have hzlen : (output.zip target).length = target.length := by
    rw [List.length_zip, hlen, min_self]
  have hNq : ((target.length : ℚ)) ≠ 0 := by
    exact_mod_cast hN.ne'
  have hval : ((target.length : ℚ)) * (100 / target.length) = 100 := by
    field_simp
  simp only [accuracy, List.map_cons, List.map_nil]
  rw [correctCount_full output target k hall, hzlen, hval]

theorem sum_map_affine (l : List ℚ) (s u : ℚ) :
    (l.map fun x => x * s + u).sum = l.sum * s + l.length * u := by
  induction l with
  | nil => simp
  | cons x t ih => simp [ih]; ring

theorem one_hot_length (t num_classes : ℕ) : (one_hot t num_classes).length = num_classes := by
  simp [one_hot]

theorem one_hot_sum (num_classes : ℕ) :
    ∀ t : ℕ, t < num_classes → (one_hot t num_classes).sum = 1 := by
  induction num_classes with
  | zero => intro t h; omega
  | succ n ih =>
    intro t h
    rw [one_hot, List.range_succ, List.map_append, List.sum_append]
    rcases Nat.lt_or_ge t n with h1 | h1
    · have hs := ih t h1
      rw [one_hot] at hs
      have hne : n ≠ t := Nat.ne_of_gt h1
      simp [hs, hne]
    · have ht : t = n := by omega
      subst ht
      have hzero : ((List.range t).map fun j => if j = t then (1 : ℚ) else 0)
          = (List.range t).map fun _ => (0 : ℚ) := by
        apply List.map_congr_left
        intro j hj
        have : j ≠ t := Nat.ne_of_lt (List.mem_range.mp hj)
        simp [this]
      rw [hzero]
      simp

theorem label_smoothing_sum (target : List ℚ) (epsilon : ℚ)
    (h2 : 2 ≤ target.length) (hsum : target.sum = 1) :
    (label_smoothing target epsilon).sum = 1 := by
  have hC : ((target.length : ℚ) - 1) ≠ 0 := by
    have hge : (2 : ℚ) ≤ (target.length : ℚ) := by exact_mod_cast h2
    intro hc
    rw [sub_eq_zero] at hc
    rw [hc] at hge
    norm_num at hge
  rw [label_smoothing, sum_map_affine, hsum]
  field_simp
  ring

theorem label_smoothing_eps_zero (target : List ℚ) :
    label_smoothing target 0 = target := by
  simp [label_smoothing]

/-! ## Claim theorems -/

/-- C1: for a `ConcatDataset` over `m ≥ 1` datasets, the length is the sum of
the underlying lengths, and every in-range index is answered by the first
underlying dataset whose cumulative range holds it, at the offset-adjusted
position (and that answer is an actual item, not an error). -/
theorem concatDataset_length_and_get {α : Type} (ds : List (List α)) (_hm : ds ≠ []) :
    concatLen ds = (ds.map List.length).sum ∧
    ∀ idx : ℕ, idx < concatLen ds →
      concatGet ds (idx : ℤ) = specConcatGet ds idx ∧
      (specConcatGet ds idx).isSome = true :=
  ⟨rfl, concatGet_eq_spec ds⟩

theorem concatDataset_length_and_get_witness :
    concatLen ([[10], [20, 30]] : List (List ℕ)) = (([[10], [20, 30]] : List (List ℕ)).map List.length).sum ∧
    concatGet ([[10], [20, 30]] : List (List ℕ)) ((2 : ℕ) : ℤ) = specConcatGet [[10], [20, 30]] 2 ∧
    specConcatGet ([[10], [20, 30]] : List (List ℕ)) 2 = some 30 := by
  have h := concatDataset_length_and_get ([[10], [20, 30]] : List (List ℕ)) (by decide)
  exact ⟨h.1, (h.2 2 (by decide)).1, by decide⟩

/-- C2 counterexample: `get(-1)` does not raise.  On `ConcatDataset([[10, 20]])`
it returns `20`, the last element of the first dataset, because the loop
passes the untouched negative index to the first underlying dataset and
Python's negative indexing answers it. -/
theorem concatDataset_get_neg_one_no_raise :
    concatGet ([[10, 20]] : List (List ℕ)) (-1) = some 20 := by decide

/-- C2 (amended): `get(idx)` raises `IndexError` for every `idx ≥ length()`,
but negative indices are not checked: they are handed unchanged to the first
underlying dataset, so `get(idx)` for `-len(D_0) ≤ idx < 0` returns an item of
`D_0` by Python negative indexing — in particular `get(-1)` returns the last
element of `D_0` whenever `D_0` is non-empty — and raises only for
`idx < -len(D_0)`. -/
theorem concatDataset_out_of_range {α : Type} (d : List α) (rest : List (List α)) :
    (∀ idx : ℤ, (concatLen (d :: rest) : ℤ) ≤ idx → concatGet (d :: rest) idx = none) ∧
    (∀ idx : ℤ, idx < 0 → concatGet (d :: rest) idx = pyGet d idx) ∧
    (∀ h : d ≠ [], concatGet (d :: rest) (-1) = some (d.getLast h)) :=
  ⟨concatGet_oob (d :: rest),
   concatGet_neg d rest,
   fun h => by rw [concatGet_neg d rest (-1) (by omega), pyGet_neg_one_getLast d h]⟩

theorem concatDataset_out_of_range_witness :
    concatGet ([[10, 20]] : List (List ℕ)) 2 = none ∧
    concatGet ([[10, 20]] : List (List ℕ)) (-2) = pyGet [10, 20] (-2) ∧
    concatGet ([[10, 20]] : List (List ℕ)) (-1) = some 20 := by
  have h := concatDataset_out_of_range ([10, 20] : List ℕ) []
  refine ⟨h.1 2 (by decide), h.2.1 (-2) (by decide), ?_⟩
  rw [h.2.2 (by decide)]
  rfl

/-- C3 (code defect): at the claim's own inputs — a dataset and an auxiliary
sequence of equal length 1 — construction raises `AttributeError` (the bare
`self.augmented_data` on line 120 reads an attribute that was never assigned),
so the intended `get` behaviour is unreachable. -/
theorem augmentedDataset_intended_get_unreachable :
    augmentedDatasetInit ([1] : List ℕ) ([5] : List ℕ)
      = Except.error PyError.attributeError := rfl

/-- C4: constructing an `AugmentedDataset` from any two sequences of equal
length always raises `AttributeError` during construction itself, so no
instance can ever be created. -/
theorem augmentedDataset_init_always_raises {α β : Type} (d : List α) (a : List β)
    (h : d.length = a.length) :
    augmentedDatasetInit d a = Except.error PyError.attributeError := by
  simp [augmentedDatasetInit, h]

theorem augmentedDataset_init_always_raises_witness :
    augmentedDatasetInit ([0, 1] : List ℕ) ([7, 8] : List ℕ)
      = Except.error PyError.attributeError :=
  augmentedDataset_init_always_raises [0, 1] [7, 8] rfl

/-- C5: after a reset, a non-empty sequence of updates with positive weights
leaves `avg` equal to the weighted arithmetic mean of the updated values
(no error is raised along the way). -/
theorem averageMeter_weighted_mean (l : List (ℚ × ℚ)) (hne : l ≠ [])
    (hpos : ∀ p ∈ l, 0 < p.2) :
    ∃ m, runUpdates l = Except.ok m ∧
      m.avg = (l.map fun p => p.1 * p.2).sum / (l.map Prod.snd).sum := by
  obtain ⟨m2, hfold, hsum, hcount, _, havg⟩ :=
    foldUpdates_spec l AverageMeter.reset (le_refl 0) hpos
  refine ⟨m2, hfold, ?_⟩
  rw [havg hne, hsum, hcount]
  simp [AverageMeter.reset]

theorem averageMeter_weighted_mean_witness :
    ∃ m, runUpdates [(2, 1), (4, 1), (6, 2)] = Except.ok m ∧ m.avg = 9 / 2 := by
  obtain ⟨m, h1, h2⟩ :=
    averageMeter_weighted_mean [(2, 1), (4, 1), (6, 2)] (by decide) (by decide)
  refine ⟨m, h1, ?_⟩
  rw [h2]
  norm_num

/-- C6 counterexample: `update(5, 0)` immediately after a reset raises
`ZeroDivisionError` — the division by the zero count is performed, not
handled. -/
theorem averageMeter_update_at_zero_count_raises :
    AverageMeter.reset.update 5 0 = Except.error PyError.zeroDivisionError := by
  simp [AverageMeter.reset, AverageMeter.update]

/-- C6 (amended): a weight-0 update while `count` is 0 raises
`ZeroDivisionError` (the division by a zero count is performed, unhandled);
a weight-0 update while `count ≠ 0` succeeds, keeps `sum` and `count`
unchanged, and recomputes `avg = sum / count`. -/
theorem averageMeter_update_zero_weight (m : AverageMeter) (v : ℚ) :
    (m.count = 0 → m.update v 0 = Except.error PyError.zeroDivisionError) ∧
    (m.count ≠ 0 → m.update v 0 = Except.ok ⟨v, m.sum / m.count, m.sum, m.count⟩) := by
  constructor <;> intro h <;> simp [AverageMeter.update, h]

theorem averageMeter_update_zero_weight_witness :
    AverageMeter.update ⟨0, 0, 0, 0⟩ 5 0 = Except.error PyError.zeroDivisionError ∧
    AverageMeter.update ⟨2, 3, 6, 2⟩ 5 0 = Except.ok ⟨5, 6 / 2, 6, 2⟩ := by
  constructor
  · exact (averageMeter_update_zero_weight ⟨0, 0, 0, 0⟩ 5).1 rfl
  · exact (averageMeter_update_zero_weight ⟨2, 3, 6, 2⟩ 5).2 (by norm_num)

/-- C7: over a non-empty batch whose rows all have `C` classes and whose
labels are valid, if every example's label is the unique highest-scoring
class then top-1 accuracy is 100; and top-`C` accuracy is 100 regardless of
the score ordering. -/
theorem accuracy_top1_and_topC (output : List (List ℚ)) (target : List ℕ) (C : ℕ)
    (hlen : output.length = target.length) (hN : 0 < target.length)
    (hC : ∀ row ∈ output, row.length = C)
    (hlab : ∀ p ∈ output.zip target, p.2 < C) :
    ((∀ p ∈ output.zip target, ∀ j < C, j ≠ p.2 → p.1.getD j 0 < p.1.getD p.2 0) →
      accuracy output target [1] = [100]) ∧
    accuracy output target [C] = [100] := by
  constructor
  · intro hmax
    apply accuracy_of_all_in_topk output target 1 hlen hN
    intro p hp
    have hrow : p.1.length = C := hC p.1 (List.of_mem_zip hp).1
    have hlt : p.2 < p.1.length := by rw [hrow]; exact hlab p hp
    have hmem := mem_topkIdx_one p.1 p.2 hlt (by
      intro j hj hne
      exact hmax p hp j (by rw [← hrow]; exact hj) hne)
    simp only [inTopk, decide_eq_true_eq]
    exact hmem
  · apply accuracy_of_all_in_topk output target C hlen hN
    intro p hp
    have hrow : p.1.length = C := hC p.1 (List.of_mem_zip hp).1
    have hmem := mem_topkIdx_full p.1 p.2 (by rw [hrow]; exact hlab p hp)
    rw [hrow] at hmem
    simp only [inTopk, decide_eq_true_eq]
    exact hmem

theorem accuracy_top1_and_topC_witness :
    accuracy [[1, 3], [5, 2]] [1, 0] [1] = [100] ∧
    accuracy [[1, 3], [5, 2]] [1, 0] [2] = [100] := by
  have h := accuracy_top1_and_topC [[1, 3], [5, 2]] [1, 0] 2 rfl (by decide)
    (by decide) (by decide)
  exact ⟨h.1 (by decide), h.2⟩

/-- C8: for every valid target distribution (a soft distribution summing to 1,
or the one-hot encoding of a valid integer label) over `C ≥ 2` classes and
every `epsilon ∈ [0, 1)`, the smoothed output sums to exactly 1, and with
`epsilon = 0` the output is the unchanged input. -/
theorem label_smoothing_props (target : List ℚ) (epsilon : ℚ)
    (h2 : 2 ≤ target.length) (hsum : target.sum = 1)
    (_heps0 : 0 ≤ epsilon) (_heps1 : epsilon < 1) :
    (label_smoothing target epsilon).sum = 1 ∧
    label_smoothing target 0 = target ∧
    (∀ t num_classes : ℕ, t < num_classes → 2 ≤ num_classes →
      (label_smoothing_int t epsilon num_classes).sum = 1 ∧
      label_smoothing_int t 0 num_classes = one_hot t num_classes) := by
  refine ⟨label_smoothing_sum target epsilon h2 hsum, label_smoothing_eps_zero target, ?_⟩
  intro t num_classes ht hc
  constructor
  · exact label_smoothing_sum (one_hot t num_classes) epsilon
      (by rw [one_hot_length]; exact hc) (one_hot_sum num_classes t ht)
  · exact label_smoothing_eps_zero (one_hot t num_classes)

theorem label_smoothing_props_witness :
    (label_smoothing [1/2, 1/2] (1/5)).sum = 1 ∧
    label_smoothing [1/2, 1/2] 0 = [1/2, 1/2] ∧
    (∀ t num_classes : ℕ, t < num_classes → 2 ≤ num_classes →
      (label_smoothing_int t (1/5) num_classes).sum = 1 ∧
      label_smoothing_int t 0 num_classes = one_hot t num_classes) :=
  label_smoothing_props [1/2, 1/2] (1/5) (by norm_num) (by norm_num) (by norm_num) (by norm_num)

/-- C9: `cross_entropy_loss` raises `ValueError` for every reduction argument
other than `"mean"`, and never raises when the reduction argument is
`"mean"` (this holds for every abstracted log-softmax kernel and every
input batch). -/
theorem cross_entropy_loss_reduction (log_softmax_row : List ℚ → List ℚ)
    (logits probs : List (List ℚ)) (reduction : String) :
    (reduction ≠ "mean" →
      cross_entropy_loss log_softmax_row logits probs reduction
        = Except.error PyError.valueError) ∧
    (reduction = "mean" →
      ∃ v, cross_entropy_loss log_softmax_row logits probs reduction = Except.ok v) := by
  constructor
  · intro h
    simp [cross_entropy_loss, h]
  · intro h
    subst h
    exact ⟨_, rfl⟩

theorem cross_entropy_loss_reduction_witness :
    cross_entropy_loss id [[1, 2]] [[1, 0]] "sum" = Except.error PyError.valueError ∧
    ∃ v, cross_entropy_loss id [[1, 2]] [[1, 0]] "mean" = Except.ok v :=
  ⟨(cross_entropy_loss_reduction id [[1, 2]] [[1, 0]] "sum").1 (by decide),
   (cross_entropy_loss_reduction id [[1, 2]] [[1, 0]] "mean").2 rfl⟩

/-- C10: constructing an `AugmentedDataset` from sequences of different
lengths raises eagerly at construction time (the `assert` on line 118 fires
as `AssertionError` before anything else happens). -/
theorem augmentedDataset_init_length_mismatch {α β : Type} (d : List α) (a : List β)
    (h : d.length ≠ a.length) :
    augmentedDatasetInit d a = Except.error PyError.assertionError := by
  simp [augmentedDatasetInit, h]

theorem augmentedDataset_init_length_mismatch_witness :
    augmentedDatasetInit ([0] : List ℕ) ([7, 8] : List ℕ)
      = Except.error PyError.assertionError :=
  augmentedDataset_init_length_mismatch [0] [7, 8] (by decide)
